import Mathlib

/-!
Shallow embedding of the Docker log viewer backend
(src/backend/src/index.js, the authenticated version) and proofs of the
frozen claims about it.

JavaScript strings are modelled as lists of characters (`JStr`); the
JS string operations used by the code (`startsWith`, `includes`,
`trim`, `split('\n')`, `substring(8)`, `charCodeAt(0)`,
`toLowerCase`, `replace('/','')`, `slice`) are given faithful
executable counterparts below.  `toLowerCase` is modelled with
`Char.toLower` (ASCII case mapping); the code only ever lowercases
search terms and log messages, and no claim depends on non-ASCII case
folding.
-/

/-- A JavaScript string, modelled as its list of characters. -/
abbrev JStr := List Char

/-- Embed a Lean string literal as a `JStr`. -/
def jstr (s : String) : JStr := s.data

/-- JS `s.startsWith(pre)`. -/
def jsStartsWith (s pre : JStr) : Bool := pre.isPrefixOf s

/-- JS `hay.includes(needle)` (substring containment). -/
def jsIncludes (hay needle : JStr) : Bool :=
  match hay with
  | [] => needle.isEmpty
  | _ :: t => needle.isPrefixOf hay || jsIncludes t needle

/-- The whitespace characters recognised by JS `trim` and `\s`
(ASCII whitespace plus NBSP and BOM; the remaining Unicode space
separators are never produced by the inputs considered here). -/
def isJsSpace (c : Char) : Bool :=
  c == ' ' || c == '\t' || c == '\n' || c == '\r' ||
  c == '\x0b' || c == '\x0c' || c == ' ' || c == '﻿'

/-- JS regex line terminators (the characters `.` does not match). -/
def isLineTerm (c : Char) : Bool :=
  c == '\n' || c == '\r' || c == ' ' || c == ' '

/-- JS `s.trim()`. -/
def jsTrim (s : JStr) : JStr :=
  ((s.dropWhile isJsSpace).reverse.dropWhile isJsSpace).reverse

/-- JS `s.split('\n')` (empty string gives `[""]`, trailing separator
gives a trailing empty piece). -/
def splitNl : JStr → List JStr
  | [] => [[]]
  | c :: t =>
    let r := splitNl t
    if c == '\n' then [] :: r
    else
      match r with
      | h :: t' => (c :: h) :: t'
      | [] => [[c]]

/-- JS `s.replace('/', '')`: delete the first occurrence of `'/'`. -/
def jsReplaceFirstSlash : JStr → JStr
  | [] => []
  | c :: t => if c == '/' then t else c :: jsReplaceFirstSlash t

/-- JS `Array.prototype.slice(start, end)` with the ECMAScript
index-clamping rules (negative indices count from the end). -/
def jsSlice (l : List α) (s e : Int) : List α :=
  let len : Int := l.length
  let relS : Int := if s < 0 then max (len + s) 0 else min s len
  let relE : Int := if e < 0 then max (len + e) 0 else min e len
  (l.drop relS.toNat).take (relE - relS).toNat

/-- A JS number that may be `NaN` (`none`). -/
abbrev JSNum := Option Int

/-- JS truthiness of an optional string query parameter:
present and non-empty. -/
def jsTruthyStr : Option JStr → Bool
  | none => false
  | some s => !s.isEmpty

/-! ## Access Control Resolver (index.js lines 354-369) -/

/-- A user record from the principal directory (the fields used by the
access resolver and the connection handler). -/
structure User where
  id : JStr
  username : JStr
  role : JStr
  allowedContainers : List JStr
deriving DecidableEq

/-- The first line of the `hasContainerAccess` allowlist callback
(index.js line 362): `containerName && allowed === containerName`.
`containerName` is nullable and is tested for JS truthiness, so an
empty name never matches. -/
def nameExactMatch (containerName : Option JStr) (allowed : JStr) : Bool :=
  match containerName with
  | some n => !n.isEmpty && allowed == n
  | none => false

/-- `hasContainerAccess(user, containerIdOrName, containerName)`,
index.js lines 354-369 (main definition; the first callback line is
`nameExactMatch` above). -/
def hasContainerAccess (user : User) (containerIdOrName : JStr)
    (containerName : Option JStr) : Bool :=
  if user.role == jstr "admin" then true
  else if user.allowedContainers.isEmpty then false
  else if user.allowedContainers.contains (jstr "*") then true
  else user.allowedContainers.any fun allowed =>
    nameExactMatch containerName allowed
    || allowed == containerIdOrName
    || jsStartsWith containerIdOrName allowed
    || jsStartsWith allowed containerIdOrName

/-- The ordered access rules exactly as the specification words them
(spec section 4.4): admin, then the `"*"` wildcard, then an exact match
of the resourceRef or the resolved name, then a prefix relationship in
either direction with the resourceRef, otherwise deny.  Stated from
the spec for comparison with `hasContainerAccess`. -/
def allowsSpec (user : User) (resourceRef : JStr)
    (resolvedName : Option JStr) : Bool :=
  if user.role == jstr "admin" then true
  else if user.allowedContainers.contains (jstr "*") then true
  else if user.allowedContainers.any
      (fun a => a == resourceRef || resolvedName.any (fun n => a == n)) then true
  else if user.allowedContainers.any
      (fun a => jsStartsWith resourceRef a || jsStartsWith a resourceRef) then true
  else false

/-- A non-admin principal whose allowlist is exactly `["web"]`. -/
def webUser : User :=
  { id := jstr "u1", username := jstr "web", role := jstr "user",
    allowedContainers := [jstr "web"] }

/-! ## Log Frame Decoder (index.js lines 712-743) -/

/-- The clock values read by one `parseDockerLogs` call:
`Date.now()` (milliseconds) and `new Date().toISOString()`. -/
structure Clock where
  nowMs : Nat
  nowIso : JStr
deriving DecidableEq

/-- One decoded log record.  `stream` holds the JS string
`"stdout"` or `"stderr"`, exactly as the code builds it. -/
structure LogRecord where
  id : JStr
  timestamp : JStr
  message : JStr
  stream : JStr
deriving DecidableEq

/-- JS regex `\d`. -/
def isDigit (c : Char) : Bool := '0' ≤ c && c ≤ '9'

/-- Consume exactly `n` digits; return them and the rest. -/
def takeDigits : Nat → JStr → Option (JStr × JStr)
  | 0, l => some ([], l)
  | n + 1, c :: t =>
    if isDigit c then (takeDigits n t).map (fun p => (c :: p.1, p.2)) else none
  | _ + 1, [] => none

/-- Consume one expected literal character. -/
def expectChar (c : Char) : JStr → Option JStr
  | d :: t => if d == c then some t else none
  | [] => none

/-- The regex match
`/^(\d{4}-\d{2}-\d{2}T\d{2}:\d{2}:\d{2}\.?\d*Z?)\s*(.*)/` of
index.js line 723, applied to a single line (which contains no
`'\n'`).  Every quantifier after the seconds field is followed only by
optional/starred parts, so greedy maximal munch is exact; `(.*)` stops
at a line terminator.  Returns `(group1, group2)` on a match. -/
def isoMatch (l : JStr) : Option (JStr × JStr) := do
  let (d4, r) ← takeDigits 4 l
  let r ← expectChar '-' r
  let (mo, r) ← takeDigits 2 r
  let r ← expectChar '-' r
  let (dy, r) ← takeDigits 2 r
  let r ← expectChar 'T' r
  let (hh, r) ← takeDigits 2 r
  let r ← expectChar ':' r
  let (mi, r) ← takeDigits 2 r
  let r ← expectChar ':' r
  let (ss, r) ← takeDigits 2 r
  let (dotPart, r) :=
    match r with
    | '.' :: t => ([('.' : Char)], t)
    | _ => (([] : JStr), r)
  let frac := r.takeWhile isDigit
  let r := r.dropWhile isDigit
  let (zPart, r) :=
    match r with
    | 'Z' :: t => ([('Z' : Char)], t)
    | _ => (([] : JStr), r)
  let r := r.dropWhile isJsSpace
  let msg := r.takeWhile (fun c => !isLineTerm c)
  let ts := d4 ++ ['-'] ++ mo ++ ['-'] ++ dy ++ ['T'] ++ hh ++ [':'] ++ mi
    ++ [':'] ++ ss ++ dotPart ++ frac ++ zPart
  pure (ts, msg)

/-- `line.charCodeAt(0) <= 2` (false on the empty line: `NaN <= 2`). -/
def headLE2 : JStr → Bool
  | c :: _ => c.toNat ≤ 2
  | [] => false

/-- `line.charCodeAt(0) === 2` (false on the empty line). -/
def headEq2 : JStr → Bool
  | c :: _ => c.toNat == 2
  | [] => false

/-- The header-stripping step of index.js lines 718-721:
`cleanLine = line.charCodeAt(0) <= 2 ? line.substring(8) : line`. -/
def cleanOf (line : JStr) : JStr :=
  if headLE2 line then line.drop 8 else line

/-- The generated record id `` `${Date.now()}-${index}` ``. -/
def mkId (clk : Clock) (index : Nat) : JStr :=
  (Nat.repr clk.nowMs).data ++ ('-' :: (Nat.repr index).data)

/-- The body of the `rawLines.forEach` callback (index.js lines
717-740): returns the record pushed for this line, or `none` when the
line is dropped. -/
def processLine (clk : Clock) (index : Nat) (line : JStr) : Option LogRecord :=
  let cleanLine := cleanOf line
  match isoMatch cleanLine with
  | some (ts, msg) =>
    some { id := mkId clk index, timestamp := ts, message := msg,
           stream := if headEq2 line then jstr "stderr" else jstr "stdout" }
  | none =>
    if (jsTrim cleanLine).isEmpty then none
    else
      some { id := mkId clk index, timestamp := clk.nowIso,
             message := cleanLine, stream := jstr "stdout" }

/-- `parseDockerLogs(buffer)`, index.js lines 712-743.  The input is
the UTF-8 decoding of the buffer (`buffer.toString('utf8')`); bytes
0..2, the only ones the framing heuristic inspects, decode to the
characters of the same code point. -/
def parseDockerLogs (clk : Clock) (buffer : JStr) : List LogRecord :=
  let rawLines := (splitNl buffer).filter (fun line => !(jsTrim line).isEmpty)
  rawLines.enum.filterMap (fun p => processLine clk p.1 p.2)

/-! ## Historical Query Engine: pagination (index.js lines 632-704) -/

/-- The `pagination` object of the response (index.js lines 697-703). -/
structure Pagination where
  page : Int
  limit : Int
  totalLogs : Nat
  totalPages : Int
  hasMore : Bool
deriving DecidableEq

/-- The response body `{logs, pagination}` (index.js lines 695-704). -/
structure PageResp where
  logs : List LogRecord
  pagination : Pagination
deriving DecidableEq

/-- `parseInt(page) || 1` (index.js line 635): `none` is an absent or
non-numeric parameter (`NaN`), and `0` is falsy. -/
def pageNumOf : Option Int → Int
  | none => 1
  | some v => if v == 0 then 1 else v

/-- `Math.min(parseInt(limit) || 500, 2000)` (index.js line 636). -/
def pageLimitOf : Option Int → Int
  | none => min 500 2000
  | some v => min (if v == 0 then 500 else v) 2000

/-- `Math.ceil(n / d)` for a non-negative numerator, as computed by JS
float division (index.js line 687).  `d` is `pageLimitOf` of the query
parameter and is never `0`; the `d = 0` branch is unreachable. -/
def jsCeilDiv (n : Nat) (d : Int) : Int :=
  if 0 < d then (((n + d.toNat - 1) / d.toNat : Nat) : Int)
  else if d < 0 then -((n / d.natAbs : Nat) : Int)
  else 0

/-- The pagination tail of the logs handler (index.js lines 634-704),
applied to the already filtered record list. -/
def paginateLogs (logLines : List LogRecord)
    (pageParam limitParam : Option Int) : PageResp :=
  let pageNum := pageNumOf pageParam
  let pageLimit := pageLimitOf limitParam
  let totalLogs := logLines.length
  let totalPages := jsCeilDiv totalLogs pageLimit
  let startIndex := (pageNum - 1) * pageLimit
  let endIndex := startIndex + pageLimit
  let paginatedLogs := jsSlice logLines startIndex endIndex
  { logs := paginatedLogs,
    pagination :=
      { page := pageNum, limit := pageLimit, totalLogs := totalLogs,
        totalPages := totalPages,
        hasMore := decide (pageNum < totalPages) } }

/-- JS `s.toLowerCase()` (ASCII case mapping, see the header note). -/
def jsToLower (s : JStr) : JStr := s.map Char.toLower

/-- The search filter of index.js lines 678-683 (`if (search)` is JS
truthiness, so an empty search term filters nothing). -/
def searchFilter (search : Option JStr) (logLines : List LogRecord) :
    List LogRecord :=
  if jsTruthyStr search then
    let searchLower := jsToLower (search.getD [])
    logLines.filter (fun log => jsIncludes (jsToLower log.message) searchLower)
  else logLines

/-- The pure tail of the historical logs handler: decode the fetched
buffer, filter by the search term, paginate (index.js lines 674-704).
The clock read by the decoder is passed explicitly. -/
def queryLogs (clk : Clock) (buffer : JStr) (search : Option JStr)
    (pageParam limitParam : Option Int) : PageResp :=
  let logLines := parseDockerLogs clk buffer
  let filtered := searchFilter search logLines
  paginateLogs filtered pageParam limitParam

/-! ## Historical Query Engine: window resolution (index.js lines 638-672) -/

/-- The `options` object passed to the log source.  A field value
`some none` is a present `NaN` (for example `Math.floor(new
Date(garbage).getTime() / 1000)`). -/
structure LogOptions where
  since : Option JSNum := none
  untl : Option JSNum := none  -- the source field is named `until`, a Lean keyword
  tail : Option JSNum := none
deriving DecidableEq

/-- The named `timeRange` tokens the switch recognises
(index.js lines 655-666). -/
def knownTimeRanges : List JStr :=
  [jstr "5m", jstr "15m", jstr "30m", jstr "1h", jstr "3h", jstr "6h",
   jstr "12h", jstr "24h", jstr "3d", jstr "7d"]

/-- The seconds subtracted from `now` for a known token; `none` for an
unknown token (the switch `default`). -/
def timeRangeSeconds (tok : JStr) : Option Int :=
  if tok == jstr "5m" then some (5 * 60)
  else if tok == jstr "15m" then some (15 * 60)
  else if tok == jstr "30m" then some (30 * 60)
  else if tok == jstr "1h" then some (60 * 60)
  else if tok == jstr "3h" then some (3 * 60 * 60)
  else if tok == jstr "6h" then some (6 * 60 * 60)
  else if tok == jstr "12h" then some (12 * 60 * 60)
  else if tok == jstr "24h" then some (24 * 60 * 60)
  else if tok == jstr "3d" then some (3 * 24 * 60 * 60)
  else if tok == jstr "7d" then some (7 * 24 * 60 * 60)
  else none

/-- `Math.floor(x / 1000)` on a possibly-NaN millisecond value. -/
def msToSeconds (x : JSNum) : JSNum := x.map (fun t => Int.fdiv t 1000)

/-- The window-resolution block of the logs handler (index.js lines
638-672).  `parseDate` models `new Date(s).getTime()` and `parseIntJs`
models `parseInt(s)`; both return `none` for `NaN`.  `now` is
`Math.floor(Date.now() / 1000)`. -/
def resolveWindow (parseDate parseIntJs : JStr → JSNum) (now : Int)
    (sinceQ untilQ timeRangeQ tailQ : Option JStr) : LogOptions :=
  let o : LogOptions := {}
  let o := if jsTruthyStr sinceQ then
      { o with since := some (msToSeconds (parseDate (sinceQ.getD []))) }
    else o
  let o := if jsTruthyStr untilQ then
      { o with untl := some (msToSeconds (parseDate (untilQ.getD []))) }
    else o
  if !jsTruthyStr sinceQ && !jsTruthyStr untilQ && jsTruthyStr timeRangeQ then
    match timeRangeSeconds (timeRangeQ.getD []) with
    | some d => { o with since := some (some (now - d)) }
    | none => { o with tail := some (some 100) }
  else if !jsTruthyStr sinceQ && !jsTruthyStr untilQ && jsTruthyStr tailQ then
    { o with tail := some (parseIntJs (tailQ.getD [])) }
  else if !jsTruthyStr sinceQ && !jsTruthyStr untilQ then
    { o with tail := some (some 100) }
  else o

/-! ## HTTP logs handler: access gate (index.js lines 613-630) -/

/-- `info.Name?.replace('/', '') || null` applied to an inspect
result: `none` for a missing `Name`, and an empty string after the
replacement is falsy. -/
def nameOf : Option JStr → Option JStr
  | none => none
  | some nm =>
    let r := jsReplaceFirstSlash nm
    if r.isEmpty then none else some r

/-- The container name the HTTP handler derives before its access
check.  The outer `Option` is the inspect call: `none` means
`container.inspect()` threw (the container does not exist), in which
case the catch leaves `containerName = null` and the handler
continues. -/
def containerNameOf : Option (Option JStr) → Option JStr
  | none => none
  | some raw => nameOf raw

/-- Outcome of the access gate of the HTTP logs handler. -/
inductive HttpGate where
  | denied
  | proceed (containerName : Option JStr)
deriving DecidableEq

/-- The access gate of `GET /api/containers/:id/logs` (index.js lines
616-630): derive the container name, then either the constant 403
`Access denied to this container` body or continuation with the
derived name. -/
def httpLogsGate (u : User) (id : JStr) (insp : Option (Option JStr)) :
    HttpGate :=
  let containerName := containerNameOf insp
  if !(hasContainerAccess u id containerName) then .denied
  else .proceed containerName

/-! ## Live Subscription Manager (index.js lines 747-871) -/

/-- A parsed client message (`data.action`).  `other` is any value of
`data.action` besides the three recognised ones. -/
inductive WsAction where
  | auth (token : JStr)
  | subscribe (containerId : JStr) (filter : Option JStr)
  | unsubscribe
  | other (name : JStr)
deriving DecidableEq

/-- A message sent back over the socket (`ws.send`). -/
inductive OutMsg where
  | authOk
  | authFail (message : JStr)
  | errorMsg (message : JStr)
deriving DecidableEq

/-- An effect on the connection's decode streams, in program order:
`destroy h` is `stream.destroy()` on handle `h`, `opn h` is a
successful `container.logs({follow: true, ...})` that returned the
stream with handle `h`. -/
inductive StreamOp where
  | destroy (h : Nat)
  | opn (h : Nat)
deriving DecidableEq

/-- The per-connection mutable state of the `wss.on('connection')`
closure: `currentStream`, `currentContainerId`, `authenticatedUser`
(index.js lines 749-751). -/
structure ConnState where
  currentStream : Option Nat
  currentContainerId : Option JStr
  authenticatedUser : Option User
deriving DecidableEq

/-- The external collaborators one message handling may consult:
`jwt.verify` (`none` = the call threw), the user directory
(`loadUsers()`), `container.inspect()` (`none` = it threw; otherwise
the raw `info.Name`, itself possibly missing), and `container.logs`
(`Except.error msg` = the await threw with that message,
`Except.ok h` = it returned the stream with fresh handle `h`). -/
structure Env where
  verify : JStr → Option JStr
  users : List User
  inspect : JStr → Option (Option JStr)
  openStream : Except JStr Nat

/-- One step of the `ws.on('message')` handler (index.js lines
753-862): the new connection state, the messages sent, and the stream
effects in program order. -/
def handleMessage (env : Env) (st : ConnState) (a : WsAction) :
    ConnState × List OutMsg × List StreamOp :=
  match a with
  | .auth token =>
    match env.verify token with
    | some uid =>
      let u? := env.users.find? (fun u => u.id == uid)
      ({ st with authenticatedUser := u? },
       [match u? with
        | some _ => .authOk
        | none => .authFail (jstr "User not found")],
       [])
    | none => (st, [.authFail (jstr "Invalid token")], [])
  | .subscribe containerId _filter =>
    match st.authenticatedUser with
    | none => (st, [.errorMsg (jstr "Not authenticated")], [])
    | some user =>
      match env.inspect containerId with
      | none => (st, [.errorMsg (jstr "Container not found")], [])
      | some rawName =>
        let containerName := nameOf rawName
        if !hasContainerAccess user containerId containerName then
          (st, [.errorMsg (jstr "Access denied to this container")], [])
        else
          let destroyOps : List StreamOp :=
            match st.currentStream with
            | some h => [.destroy h]
            | none => []
          match env.openStream with
          | .ok h' =>
            ({ st with currentStream := some h',
                       currentContainerId := some containerId },
             [], destroyOps ++ [.opn h'])
          | .error msg =>
            -- the await threw after the old stream was destroyed:
            -- the outer catch sends the error; currentStream still
            -- holds the destroyed handle
            ({ st with currentContainerId := some containerId },
             [.errorMsg msg], destroyOps)
  | .unsubscribe =>
    match st.authenticatedUser with
    | none => (st, [.errorMsg (jstr "Not authenticated")], [])
    | some _ =>
      match st.currentStream with
      | some h =>
        ({ st with currentStream := none, currentContainerId := none },
         [], [.destroy h])
      | none => (st, [], [])
  | .other _ =>
    match st.authenticatedUser with
    | none => (st, [.errorMsg (jstr "Not authenticated")], [])
    | some _ => (st, [], [])

/-- The `ws.on('close')` cleanup (index.js lines 864-871): the stream
effects of a disconnect. -/
def closeConn (st : ConnState) : List StreamOp :=
  match st.currentStream with
  | some h => [.destroy h]
  | none => []

/-- Apply one stream effect to the set of open streams of this
connection. -/
def applyOp (s : List Nat) : StreamOp → List Nat
  | .destroy h => s.erase h
  | .opn h => s ++ [h]

/-- Apply a sequence of stream effects. -/
def applyOps (s : List Nat) (ops : List StreamOp) : List Nat :=
  ops.foldl applyOp s

/-- The connection invariant: every open decode stream of the
connection is the one `currentStream` points to (so there is at most
one, and cleanup closes it). -/
def InvConn (st : ConnState) (s : List Nat) : Prop :=
  s = [] ∨ ∃ h, st.currentStream = some h ∧ s = [h]


/-! ## Concrete sample inputs (used by witnesses and counterexamples) -/

/-- Whether a client message is the `auth` action. -/
def isAuthAction : WsAction → Bool
  | .auth _ => true
  | _ => false

/-- The clock-independent projection of a record: its message and
stream. -/
def projMS (r : LogRecord) : JStr × JStr := (r.message, r.stream)

/-- A sample decode-time clock. -/
def clkA : Clock := { nowMs := 0, nowIso := jstr "2025-06-01T00:00:00.000Z" }

/-- A sample clock for the first of two identical queries. -/
def clkMs0 : Clock := { nowMs := 0, nowIso := jstr "2025-06-01T00:00:00.000Z" }

/-- Identical to `clkMs0` except that `Date.now()` is one millisecond
later. -/
def clkMs1 : Clock := { nowMs := 1, nowIso := jstr "2025-06-01T00:00:00.000Z" }

/-- A one-line buffer with an ISO-8601 timestamp prefix. -/
def bufIso : JStr := jstr "2024-01-15T10:30:45Z hi"

/-- A framed line: marker byte 2, 7 filler header bytes, then a
payload with no ISO timestamp. -/
def framedNoIso : JStr :=
  Char.ofNat 2 :: (List.replicate 7 (Char.ofNat 0) ++ jstr "hello")

/-- A framed line: marker byte 2, 7 filler header bytes, then a
payload with an ISO timestamp prefix. -/
def framedIso : JStr :=
  Char.ofNat 2 :: (List.replicate 7 (Char.ofNat 0) ++ jstr "2024-01-15T10:30:45Z hi")

/-- An environment in which every external call fails. -/
def env0 : Env :=
  { verify := fun _ => none, users := [],
    inspect := fun _ => none, openStream := .error (jstr "boom") }

/-- A freshly connected, unauthenticated connection. -/
def stUnauth : ConnState :=
  { currentStream := none, currentContainerId := none,
    authenticatedUser := none }

/-- An environment in which the container exists (name `web`) and the
log source returns stream handle 7. -/
def envOk : Env :=
  { verify := fun _ => some (jstr "u1"), users := [webUser],
    inspect := fun _ => some (some (jstr "/web")), openStream := .ok 7 }

/-- A connection authenticated as `webUser`, already subscribed with
stream handle 3. -/
def stSub : ConnState :=
  { currentStream := some 3, currentContainerId := some (jstr "web"),
    authenticatedUser := some webUser }

/-- An environment in which the container `db` exists. -/
def envDbExists : Env :=
  { verify := fun _ => none, users := [],
    inspect := fun _ => some (some (jstr "/db")), openStream := .ok 0 }

/-- An environment in which no container exists. -/
def envDbMissing : Env :=
  { verify := fun _ => none, users := [],
    inspect := fun _ => none, openStream := .ok 0 }

/-- A connection authenticated as `webUser` with no open stream. -/
def stAuthWeb : ConnState :=
  { currentStream := none, currentContainerId := none,
    authenticatedUser := some webUser }

/-- A distinguishable sample record. -/
def sampleRec (i : Nat) : LogRecord :=
  { id := (Nat.repr i).data, timestamp := [], message := [],
    stream := jstr "stdout" }

/-- A stored set of 150 records. -/
def l150 : List LogRecord := (List.range 150).map sampleRec

/-! ## Helper lemmas -/

theorem list_any_or_distrib (l : List α) (p q : α → Bool) :
    (l.any fun a => p a || q a) = (l.any p || l.any q) := by
  induction l with
  | nil => rfl
  | cons a t ih =>
    simp only [List.any_cons, ih]
    cases p a <;> cases q a <;> simp

/-- The allowlist callback of `hasContainerAccess` agrees pointwise
with the disjunction of the spec's exact-match and prefix rules.  The
only divergence candidate — an empty resolved name, which JS
truthiness skips — is absorbed by the prefix rule, since an empty
allowlist entry is a prefix of every ref. -/
theorem hasAccess_pointwise (ref : JStr) (name : Option JStr) (a : JStr) :
    (nameExactMatch name a
     || a == ref || jsStartsWith ref a || jsStartsWith a ref)
    = ((a == ref || name.any (fun n => a == n))
       || (jsStartsWith ref a || jsStartsWith a ref)) := by
  cases name with
  | none => simp [nameExactMatch, Bool.or_assoc]
  | some n =>
    by_cases hn : n = []
    · subst hn
      cases ha : a == ([] : JStr) with
      | false => simp [nameExactMatch, ha, Bool.or_assoc]
      | true =>
        have ha' : a = [] := by simpa using ha
        subst ha'
        have : jsStartsWith ref [] = true := by
          simp [jsStartsWith, List.isPrefixOf]
        simp [nameExactMatch, this]
    · have hne : n.isEmpty = false := by
        cases n with
        | nil => exact absurd rfl hn
        | cons c t => rfl
      simp only [nameExactMatch, hne, Bool.not_false, Bool.true_and,
        Option.any_some]
      cases a == n <;> cases a == ref <;> simp

/-- The code's access decision coincides with the spec's ordered-rule
decision on every input. -/
theorem hasAccess_eq_spec (u : User) (ref : JStr) (name : Option JStr) :
    hasContainerAccess u ref name = allowsSpec u ref name := by
  unfold hasContainerAccess allowsSpec
  cases hadm : (u.role == jstr "admin") with
  | true => simp [hadm]
  | false =>
    simp only [hadm, Bool.false_eq_true, if_false]
    cases hstar : u.allowedContainers.contains (jstr "*") with
    | true =>
      have hne : u.allowedContainers.isEmpty = false := by
        cases hl : u.allowedContainers with
        | nil => rw [hl] at hstar; simp at hstar
        | cons c t => rfl
      simp [hne, hstar]
    | false =>
      simp only [hstar, Bool.false_eq_true, if_false]
      cases hl : u.allowedContainers with
      | nil => simp
      | cons c t =>
        simp only [List.isEmpty_cons, Bool.false_eq_true, if_false]
        have hpt :
            (fun a => nameExactMatch name a
             || a == ref || jsStartsWith ref a || jsStartsWith a ref)
            = (fun a => (a == ref || name.any (fun n => a == n))
               || (jsStartsWith ref a || jsStartsWith a ref)) := by
          funext a
          exact hasAccess_pointwise ref name a
        rw [hpt, list_any_or_distrib]
        cases h1 : (c :: t).any (fun a => a == ref || name.any (fun n => a == n)) <;>
          cases h2 : (c :: t).any (fun a => jsStartsWith ref a || jsStartsWith a ref) <;>
          simp

/-! ## Claim theorems -/

/-- C1: access is decided by the spec's ordered rules — admin always
allowed, `"*"` allows, exact match of the ref or resolved name allows,
a prefix relationship in either direction between an entry and the
ref allows, otherwise deny — and in particular a non-admin principal
with allowlist `["web"]` is allowed `"web"` and every ref with string
prefix `"web"`, and is denied `"db"`. -/
theorem hasContainerAccess_ordered_rules :
    (∀ (u : User) (ref : JStr) (name : Option JStr),
      hasContainerAccess u ref name = allowsSpec u ref name)
    ∧ (∀ (u : User) (ref : JStr), u.role ≠ jstr "admin" →
        u.allowedContainers = [jstr "web"] →
        hasContainerAccess u (jstr "web") none = true
        ∧ (jsStartsWith ref (jstr "web") = true →
            hasContainerAccess u ref none = true)
        ∧ hasContainerAccess u (jstr "db") none = false) := by
  refine ⟨hasAccess_eq_spec, ?_⟩
  intro u ref hrole hlist
  have hadm : (u.role == jstr "admin") = false := beq_eq_false_iff_ne.mpr hrole
  refine ⟨?_, ?_, ?_⟩
  · simp [hasContainerAccess, hadm, hlist]
  · intro hpre
    simp [hasContainerAccess, hadm, hlist, hpre]
  · simp [hasContainerAccess, hadm, hlist]
    decide

/-- C1 witness: the `webUser` principal is allowed `"web-1"` (a ref
with prefix `"web"`) and denied `"db"`. -/
theorem hasContainerAccess_ordered_rules_witness :
    jsStartsWith (jstr "web-1") (jstr "web") = true
    ∧ hasContainerAccess webUser (jstr "web-1") none = true
    ∧ hasContainerAccess webUser (jstr "db") none = false :=
  ⟨by decide,
   (hasContainerAccess_ordered_rules.2 webUser (jstr "web-1")
     (by decide) rfl).2.1 (by decide),
   (hasContainerAccess_ordered_rules.2 webUser (jstr "web-1")
     (by decide) rfl).2.2⟩

theorem inv_none {st : ConnState} {s : List Nat}
    (hc : st.currentStream = none) (hi : InvConn st s) : s = [] := by
  rcases hi with h | ⟨x, hx, hs⟩
  · exact h
  · rw [hc] at hx; cases hx

theorem inv_erase {st : ConnState} {s : List Nat} {x : Nat}
    (hc : st.currentStream = some x) (hi : InvConn st s) : s.erase x = [] := by
  rcases hi with h | ⟨y, hy, hs⟩
  · simp [h]
  · rw [hc] at hy
    cases hy
    simp [hs]

theorem inv_len {st : ConnState} {s : List Nat} (hi : InvConn st s) :
    s.length ≤ 1 := by
  rcases hi with h | ⟨x, hx, hs⟩
  · simp [h]
  · simp [hs]

/-- One handled message preserves the connection invariant, and the
set of open streams has size at most one after every prefix of the
step's stream effects. -/
theorem handleMessage_inv_aux (env : Env) (st : ConnState) (a : WsAction)
    (s : List Nat) (hi : InvConn st s) :
    InvConn (handleMessage env st a).1 (applyOps s (handleMessage env st a).2.2)
    ∧ ∀ n, (applyOps s ((handleMessage env st a).2.2.take n)).length ≤ 1 := by
  have hlen := inv_len hi
  cases a with
  | auth t =>
    cases hv : env.verify t with
    | some uid =>
      refine ⟨?_, ?_⟩
      · simpa [handleMessage, hv, applyOps, InvConn] using hi
      · intro n
        simpa [handleMessage, hv, applyOps] using hlen
    | none =>
      refine ⟨?_, ?_⟩
      · simpa [handleMessage, hv, applyOps, InvConn] using hi
      · intro n
        simpa [handleMessage, hv, applyOps] using hlen
  | subscribe cid f =>
    cases hu : st.authenticatedUser with
    | none =>
      refine ⟨?_, ?_⟩
      · simpa [handleMessage, hu, applyOps, InvConn] using hi
      · intro n
        simpa [handleMessage, hu, applyOps] using hlen
    | some user =>
      cases hins : env.inspect cid with
      | none =>
        refine ⟨?_, ?_⟩
        · simpa [handleMessage, hu, hins, applyOps, InvConn] using hi
        · intro n
          simpa [handleMessage, hu, hins, applyOps] using hlen
      | some raw =>
        cases hacc : hasContainerAccess user cid (nameOf raw) with
        | false =>
          refine ⟨?_, ?_⟩
          · simpa [handleMessage, hu, hins, hacc, applyOps, InvConn] using hi
          · intro n
            simpa [handleMessage, hu, hins, hacc, applyOps] using hlen
        | true =>
          cases hcur : st.currentStream with
          | none =>
            have hs0 : s = [] := inv_none hcur hi
            subst hs0
            cases hop : env.openStream with
            | ok h' =>
              refine ⟨?_, ?_⟩
              · right
                refine ⟨h', ?_, ?_⟩ <;>
                  simp [handleMessage, hu, hins, hacc, hcur, hop, applyOps,
                    applyOp]
              · intro n
                rcases n with _ | n <;>
                  simp [handleMessage, hu, hins, hacc, hcur, hop, applyOps,
                    applyOp]
            | error msg =>
              refine ⟨?_, ?_⟩
              · left
                simp [handleMessage, hu, hins, hacc, hcur, hop, applyOps]
              · intro n
                simp [handleMessage, hu, hins, hacc, hcur, hop, applyOps]
          | some h =>
            have hex : s.erase h = [] := inv_erase hcur hi
            cases hop : env.openStream with
            | ok h' =>
              refine ⟨?_, ?_⟩
              · right
                refine ⟨h', ?_, ?_⟩ <;>
                  simp [handleMessage, hu, hins, hacc, hcur, hop, applyOps,
                    applyOp, hex]
              · intro n
                rcases n with _ | _ | n <;>
                  simp [handleMessage, hu, hins, hacc, hcur, hop, applyOps,
                    applyOp, hex, hlen]
            | error msg =>
              refine ⟨?_, ?_⟩
              · left
                simp [handleMessage, hu, hins, hacc, hcur, hop, applyOps,
                  applyOp, hex]
              · intro n
                rcases n with _ | n <;>
                  simp [handleMessage, hu, hins, hacc, hcur, hop, applyOps,
                    applyOp, hex, hlen]
  | unsubscribe =>
    cases hu : st.authenticatedUser with
    | none =>
      refine ⟨?_, ?_⟩
      · simpa [handleMessage, hu, applyOps, InvConn] using hi
      · intro n
        simpa [handleMessage, hu, applyOps] using hlen
    | some user =>
      cases hcur : st.currentStream with
      | none =>
        refine ⟨?_, ?_⟩
        · simpa [handleMessage, hu, hcur, applyOps, InvConn] using hi
        · intro n
          simpa [handleMessage, hu, hcur, applyOps] using hlen
      | some h =>
        have hex : s.erase h = [] := inv_erase hcur hi
        refine ⟨?_, ?_⟩
        · left
          simp [handleMessage, hu, hcur, applyOps, applyOp, hex]
        · intro n
          rcases n with _ | n <;>
            simp [handleMessage, hu, hcur, applyOps, applyOp, hex, hlen]
  | other nm =>
    cases hu : st.authenticatedUser with
    | none =>
      refine ⟨?_, ?_⟩
      · simpa [handleMessage, hu, applyOps, InvConn] using hi
      · intro n
        simpa [handleMessage, hu, applyOps] using hlen
    | some user =>
      refine ⟨?_, ?_⟩
      · simpa [handleMessage, hu, applyOps, InvConn] using hi
      · intro n
        simpa [handleMessage, hu, applyOps] using hlen

theorem jsSlice_nonneg (l : List α) (s c : Int) (hs : 0 ≤ s) (hc : 0 ≤ c) :
    jsSlice l s (s + c) = (l.drop s.toNat).take c.toNat := by
  simp only [jsSlice]
  rw [if_neg (by omega), if_neg (by omega)]
  by_cases hsl : s ≤ (l.length : Int)
  · rw [min_eq_left hsl]
    by_cases hec : s + c ≤ (l.length : Int)
    · rw [min_eq_left hec]
      have : s + c - s = c := by ring
      rw [this]
    · rw [min_eq_right (le_of_not_le hec)]
      have hlen : (l.drop s.toNat).length = l.length - s.toNat := by
        simp [List.length_drop]
      rw [List.take_eq_take]
      omega
  · rw [min_eq_right (le_of_not_le hsl)]
    have h1 : l.drop (l.length : Int).toNat = [] := by
      simp [List.drop_length]
    have h2 : l.drop s.toNat = [] := by
      apply List.drop_eq_nil_of_le
      omega
    rw [h1, h2]
    simp

/-- Concatenating the `L`-sized chunks of a list reproduces it, as
long as enough chunks are taken. -/
theorem chunk_join (L : Nat) (hL : 1 ≤ L) :
    ∀ (tp : Nat) (l : List α), l.length ≤ tp * L →
    ((List.range tp).map (fun i => (l.drop (i * L)).take L)).flatten = l := by
  intro tp
  induction tp with
  | zero =>
    intro l h
    have hl : l = [] := List.eq_nil_of_length_eq_zero (by omega)
    simp [hl]
  | succ tp ih =>
    intro l h
    rw [List.range_succ_eq_map]
    simp only [List.map_cons, List.map_map, List.flatten_cons]
    have hcomp :
        ((fun i => (l.drop (i * L)).take L) ∘ Nat.succ)
          = (fun i => ((l.drop L).drop (i * L)).take L) := by
      funext i
      simp only [Function.comp_apply]
      rw [Nat.succ_mul, List.drop_drop, Nat.add_comm]
    rw [hcomp]
    have hlen2 : (l.drop L).length ≤ tp * L := by
      simp only [List.length_drop]
      have h2 : l.length ≤ tp * L + L := by
        calc l.length ≤ (tp + 1) * L := h
        _ = tp * L + L := by ring
      omega
    rw [ih (l.drop L) hlen2]
    simp [List.take_append_drop]

theorem le_ceil_mul (n L : Nat) (hL : 1 ≤ L) : n ≤ ((n + L - 1) / L) * L := by
  have h1 := Nat.div_add_mod (n + L - 1) L
  have h3 : L * ((n + L - 1) / L) = (n + L - 1) / L * L := Nat.mul_comm _ _
  rw [h3] at h1
  have h2 : (n + L - 1) % L < L := Nat.mod_lt _ (by omega)
  generalize (n + L - 1) / L * L = M at h1 ⊢
  generalize (n + L - 1) % L = r at h1 h2
  omega

theorem pageLimitOf_some_pos (lim : Int) (h : 1 ≤ lim) :
    pageLimitOf (some lim) = min lim 2000 := by
  have h0 : (lim == 0) = false := by
    rw [beq_eq_false_iff_ne]
    omega
  simp [pageLimitOf, h0]

theorem pageNumOf_succ (i : Nat) :
    pageNumOf (some ((i : Int) + 1)) = (i : Int) + 1 := by
  have h0 : (((i : Int) + 1) == 0) = false := by
    rw [beq_eq_false_iff_ne]
    omega
  simp [pageNumOf, h0]

theorem paginate_page_logs (l : List LogRecord) (lim : Int) (h : 1 ≤ lim)
    (i : Nat) :
    (paginateLogs l (some ((i : Int) + 1)) (some lim)).logs
      = (l.drop (i * (min lim 2000).toNat)).take (min lim 2000).toNat := by
  have hL : (1 : Int) ≤ min lim 2000 := le_min h (by omega)
  obtain ⟨LN, hLN⟩ : ∃ n : Nat, min lim 2000 = (n : Int) :=
    ⟨(min lim 2000).toNat, (Int.toNat_of_nonneg (by omega)).symm⟩
  simp only [paginateLogs, pageNumOf_succ, pageLimitOf_some_pos lim h]
  rw [hLN]
  have e1 : ((i : Int) + 1 - 1) * (LN : Int) = ((i * LN : Nat) : Int) := by
    push_cast
    ring
  rw [e1, jsSlice_nonneg l _ _ (by positivity) (by positivity)]
  simp only [Int.toNat_natCast]

theorem paginate_totalPages (l : List LogRecord) (lim : Int) (h : 1 ≤ lim)
    (p : Option Int) :
    (paginateLogs l p (some lim)).pagination.totalPages
      = (((l.length + (min lim 2000).toNat - 1) / (min lim 2000).toNat
          : Nat) : Int) := by
  have hL : (0 : Int) < min lim 2000 := by
    have := le_min h (show (1 : Int) ≤ 2000 by omega)
    omega
  simp only [paginateLogs, pageLimitOf_some_pos lim h, jsCeilDiv]
  rw [if_pos hL]

theorem processLine_proj (clk clk' : Clock) (i i' : Nat) (line : JStr) :
    (processLine clk i line).map projMS
      = (processLine clk' i' line).map projMS := by
  unfold processLine
  cases h : isoMatch (cleanOf line) with
  | some p =>
    cases p
    simp [h, projMS]
  | none =>
    by_cases hb : (jsTrim (cleanOf line)).isEmpty = true
    · simp [h, hb]
    · simp [h, hb, projMS]

theorem filterMap_processLine_proj (clk clk' : Clock) :
    ∀ l : List (Nat × JStr),
      ((l.filterMap (fun p => processLine clk p.1 p.2)).map projMS)
        = ((l.filterMap (fun p => processLine clk' p.1 p.2)).map projMS) := by
  intro l
  induction l with
  | nil => rfl
  | cons a t ih =>
    simp only [List.filterMap_cons]
    have hp := processLine_proj clk clk' a.1 a.1 a.2
    cases h1 : processLine clk a.1 a.2 with
    | none =>
      cases h2 : processLine clk' a.1 a.2 with
      | none => simpa using ih
      | some r => rw [h1, h2] at hp; simp at hp
    | some r =>
      cases h2 : processLine clk' a.1 a.2 with
      | none => rw [h1, h2] at hp; simp at hp
      | some r' =>
        rw [h1, h2] at hp
        simp only [Option.map_some'] at hp
        injection hp with hp'
        simp [ih, hp']

theorem parseDockerLogs_proj (clk clk' : Clock) (buf : JStr) :
    (parseDockerLogs clk buf).map projMS
      = (parseDockerLogs clk' buf).map projMS := by
  unfold parseDockerLogs
  exact filterMap_processLine_proj clk clk' _

theorem filter_msg_proj (p : JStr → Bool) :
    ∀ (l1 l2 : List LogRecord),
      l1.map projMS = l2.map projMS →
      (l1.filter (fun r => p r.message)).map projMS
        = (l2.filter (fun r => p r.message)).map projMS := by
  intro l1
  induction l1 with
  | nil =>
    intro l2 h
    cases l2 with
    | nil => rfl
    | cons b t2 => simp at h
  | cons a t ih =>
    intro l2 h
    cases l2 with
    | nil => simp at h
    | cons b t2 =>
      simp only [List.map_cons, List.cons.injEq] at h
      obtain ⟨hab, ht⟩ := h
      have hmsg : a.message = b.message := congrArg Prod.fst hab
      simp only [List.filter_cons, hmsg]
      cases hpb : p b.message with
      | false => exact ih t2 ht
      | true =>
        simp [hab, ih t2 ht]

theorem searchFilter_proj (search : Option JStr) (l1 l2 : List LogRecord)
    (h : l1.map projMS = l2.map projMS) :
    (searchFilter search l1).map projMS
      = (searchFilter search l2).map projMS := by
  unfold searchFilter
  cases ht : jsTruthyStr search with
  | false => simpa using h
  | true =>
    simp only [if_pos rfl]
    exact filter_msg_proj (fun m => jsIncludes (jsToLower m)
      (jsToLower (search.getD []))) l1 l2 h

theorem jsSlice_map (f : α → β) (l : List α) (s e : Int) :
    (jsSlice l s e).map f = jsSlice (l.map f) s e := by
  simp only [jsSlice, List.length_map]
  rw [List.map_take, List.map_drop]

theorem isJsSpace_not_digit (c : Char) (h : isJsSpace c = true) :
    isDigit c = false := by
  simp only [isJsSpace, Bool.or_eq_true, beq_iff_eq] at h
  rcases h with ((((((h | h) | h) | h) | h) | h) | h) | h <;> subst h <;> decide

theorem isoMatch_of_all_space (l : JStr) (h : ∀ x ∈ l, isJsSpace x = true) :
    isoMatch l = none := by
  cases l with
  | nil => rfl
  | cons c t =>
    have hc : isJsSpace c = true := h c (by simp)
    have hd : isDigit c = false := isJsSpace_not_digit c hc
    have h0 : takeDigits 4 (c :: t) = none := by simp [takeDigits, hd]
    unfold isoMatch
    rw [h0]
    rfl

theorem jsTrim_nil_all_space (l : JStr) (h : jsTrim l = []) :
    ∀ x ∈ l, isJsSpace x = true := by
  unfold jsTrim at h
  have h2 : (l.dropWhile isJsSpace).reverse.dropWhile isJsSpace = [] := by
    simpa using congrArg List.reverse h
  have h3 : ∀ x ∈ (l.dropWhile isJsSpace).reverse, isJsSpace x = true :=
    List.dropWhile_eq_nil_iff.mp h2
  have h4 : ∀ x ∈ l.dropWhile isJsSpace, isJsSpace x = true := by
    intro x hx
    exact h3 x (List.mem_reverse.mpr hx)
  intro x hx
  rw [← List.takeWhile_append_dropWhile (p := isJsSpace) (l := l)] at hx
  rcases List.mem_append.mp hx with hx | hx
  · exact List.mem_takeWhile_imp hx
  · exact h4 x hx

/-- C2 counterexample: the live subscribe path leaks resource
existence to a denied principal.  `webUser` lacks permission to
`db`; when the container exists the reply is the access-denied error,
when it does not exist the reply is `Container not found` — two
different observable contents. -/
theorem wsSubscribe_leaks_existence_cex :
    (handleMessage envDbExists stAuthWeb (.subscribe (jstr "db") none)).2.1
      = [.errorMsg (jstr "Access denied to this container")]
    ∧ (handleMessage envDbMissing stAuthWeb (.subscribe (jstr "db") none)).2.1
      = [.errorMsg (jstr "Container not found")]
    ∧ (handleMessage envDbExists stAuthWeb (.subscribe (jstr "db") none)).2.1
      ≠ (handleMessage envDbMissing stAuthWeb (.subscribe (jstr "db") none)).2.1 := by
  refine ⟨?_, ?_, ?_⟩ <;> decide

/-- C2 (amended): on the historical query path a denied request is
answered with the same 403 access-denied body whether or not the
resource exists; the denied requester learns nothing about existence
there.  (The live subscribe path checks existence first and leaks it —
see the counterexample.) -/
theorem accessDenied_uniform_http :
    ∀ (u : User) (id : JStr) (insp insp' : Option (Option JStr)),
      hasContainerAccess u id (containerNameOf insp) = false →
      hasContainerAccess u id (containerNameOf insp') = false →
      httpLogsGate u id insp = .denied
      ∧ httpLogsGate u id insp = httpLogsGate u id insp' := by
  intro u id insp insp' h h'
  constructor <;> simp [httpLogsGate, h, h']

/-- C2 witness: `webUser` is denied `db` both when the container
exists and when it does not, with identical outcomes. -/
theorem accessDenied_uniform_http_witness :
    httpLogsGate webUser (jstr "db") (some (some (jstr "/db"))) = .denied
    ∧ httpLogsGate webUser (jstr "db") (some (some (jstr "/db")))
        = httpLogsGate webUser (jstr "db") none :=
  accessDenied_uniform_http webUser (jstr "db") (some (some (jstr "/db")))
    none (by decide) (by decide)

/-- C3: any action other than `auth` sent on an unauthenticated
connection is answered with the authentication-required error, opens
no decode stream, and leaves the connection state unchanged. -/
theorem ws_requires_auth (env : Env) (st : ConnState) (a : WsAction)
    (hu : st.authenticatedUser = none) (ha : isAuthAction a = false) :
    handleMessage env st a
      = (st, [.errorMsg (jstr "Not authenticated")], []) := by
  cases a with
  | auth t => simp [isAuthAction] at ha
  | subscribe cid f => simp [handleMessage, hu]
  | unsubscribe => simp [handleMessage, hu]
  | other n => simp [handleMessage, hu]

/-- C3 witness: a subscribe on a fresh unauthenticated connection is
rejected with no state change and no stream effect. -/
theorem ws_requires_auth_witness :
    handleMessage env0 stUnauth (.subscribe (jstr "db") none)
      = (stUnauth, [.errorMsg (jstr "Not authenticated")], []) :=
  ws_requires_auth env0 stUnauth (.subscribe (jstr "db") none) rfl rfl

/-- C4: every transition preserves the at-most-one-open-stream
invariant (with at most one stream open after every prefix of the
step's effects); a denied subscribe changes nothing; an allowed
subscribe destroys the existing stream strictly before opening the
new one; unsubscribe and disconnect destroy the open stream. -/
theorem subscription_single_stream :
    (∀ (env : Env) (st : ConnState) (a : WsAction) (s : List Nat),
      InvConn st s →
      InvConn (handleMessage env st a).1
        (applyOps s (handleMessage env st a).2.2)
      ∧ ∀ n, (applyOps s ((handleMessage env st a).2.2.take n)).length ≤ 1)
    ∧ (∀ (env : Env) (st : ConnState) (u : User) (cid : JStr)
        (f : Option JStr) (raw : Option JStr),
        st.authenticatedUser = some u → env.inspect cid = some raw →
        hasContainerAccess u cid (nameOf raw) = false →
        handleMessage env st (.subscribe cid f)
          = (st, [.errorMsg (jstr "Access denied to this container")], []))
    ∧ (∀ (env : Env) (st : ConnState) (u : User) (cid : JStr)
        (f : Option JStr) (raw : Option JStr) (h h' : Nat),
        st.authenticatedUser = some u → env.inspect cid = some raw →
        hasContainerAccess u cid (nameOf raw) = true →
        st.currentStream = some h → env.openStream = .ok h' →
        (handleMessage env st (.subscribe cid f)).2.2
          = [.destroy h, .opn h']
        ∧ (handleMessage env st (.subscribe cid f)).1.currentStream
          = some h')
    ∧ (∀ (env : Env) (st : ConnState) (u : User) (h : Nat),
        st.authenticatedUser = some u → st.currentStream = some h →
        handleMessage env st .unsubscribe
          = ({ st with currentStream := none, currentContainerId := none },
             [], [.destroy h]))
    ∧ (∀ (st : ConnState) (h : Nat), st.currentStream = some h →
        closeConn st = [.destroy h]) := by
  refine ⟨handleMessage_inv_aux, ?_, ?_, ?_, ?_⟩
  · intro env st u cid f raw hu hins hacc
    simp [handleMessage, hu, hins, hacc]
  · intro env st u cid f raw h h' hu hins hacc hcur hop
    constructor <;> simp [handleMessage, hu, hins, hacc, hcur, hop]
  · intro env st u h hu hcur
    simp [handleMessage, hu, hcur]
  · intro st h hcur
    simp [closeConn, hcur]

/-- C4 witness: on a connection subscribed with stream 3, an allowed
re-subscribe destroys stream 3 and then opens stream 7, and the
invariant holds afterwards. -/
theorem subscription_single_stream_witness :
    (handleMessage envOk stSub (.subscribe (jstr "web") none)).2.2
      = [.destroy 3, .opn 7]
    ∧ InvConn (handleMessage envOk stSub (.subscribe (jstr "web") none)).1
        (applyOps [3]
          (handleMessage envOk stSub (.subscribe (jstr "web") none)).2.2) :=
  ⟨(subscription_single_stream.2.2.1 envOk stSub webUser (jstr "web") none
      (some (jstr "/web")) 3 7 rfl rfl (by decide) rfl rfl).1,
   (subscription_single_stream.1 envOk stSub (.subscribe (jstr "web") none)
      [3] (Or.inr ⟨3, rfl, rfl⟩)).1⟩

/-- C5: for every Page built by the historical query engine, `hasMore`
is true exactly when `page < totalPages`. -/
theorem hasMore_iff_page_lt_totalPages (l : List LogRecord)
    (pageP limitP : Option Int) :
    ((paginateLogs l pageP limitP).pagination.hasMore = true) ↔
    (paginateLogs l pageP limitP).pagination.page <
      (paginateLogs l pageP limitP).pagination.totalPages := by
  simp [paginateLogs]

/-- C6: for every filtered record set and every limit with
`1 ≤ limit`, concatenating pages 1 through `totalPages` reproduces the
set in order without duplication or omission; and 150 records at
`limit = 50` give `totalPages = 3`, `hasMore` true on pages 1 and 2
and false on page 3, and page 3 holds exactly the remaining 50
records. -/
theorem pages_concat_reproduce :
    (∀ (l : List LogRecord) (lim : Int), 1 ≤ lim →
      ((List.range
          (paginateLogs l (some 1) (some lim)).pagination.totalPages.toNat).map
        (fun i : Nat =>
          (paginateLogs l (some ((i : Int) + 1)) (some lim)).logs)).flatten
        = l)
    ∧ (∀ l : List LogRecord, l.length = 150 →
        (paginateLogs l none (some 50)).pagination.totalPages = 3
        ∧ (paginateLogs l (some 1) (some 50)).pagination.hasMore = true
        ∧ (paginateLogs l (some 2) (some 50)).pagination.hasMore = true
        ∧ (paginateLogs l (some 3) (some 50)).pagination.hasMore = false
        ∧ (paginateLogs l (some 3) (some 50)).logs = l.drop 100
        ∧ (paginateLogs l (some 3) (some 50)).logs.length = 50) := by
  constructor
  · intro l lim hlim
    have hLn : 1 ≤ (min lim 2000).toNat := by
      have := le_min hlim (show (1 : Int) ≤ 2000 by omega)
      omega
    have hf : (fun i : Nat =>
        (paginateLogs l (some ((i : Int) + 1)) (some lim)).logs)
        = (fun i : Nat =>
          (l.drop (i * (min lim 2000).toNat)).take (min lim 2000).toNat) :=
      funext (fun i => paginate_page_logs l lim hlim i)
    rw [hf, paginate_totalPages l lim hlim]
    simp only [Int.toNat_natCast]
    exact chunk_join _ hLn _ l (le_ceil_mul _ _ hLn)
  · intro l h150
    have h3 : (paginateLogs l (some 3) (some 50)).logs = l.drop 100 := by
      have h2 := paginate_page_logs l 50 (by omega) 2
      simp only [show ((50 : Int) ⊓ 2000) = 50 from rfl,
        show (50 : Int).toNat = 50 from rfl] at h2
      norm_num at h2
      rw [h2]
      have hlen : (l.drop 100).length = 50 := by
        simp [List.length_drop, h150]
      rw [← hlen, List.take_length]
    refine ⟨?_, ?_, ?_, ?_, h3, ?_⟩
    · rw [paginate_totalPages l 50 (by omega) none]
      norm_num [h150]
    · simp [paginateLogs, pageNumOf, pageLimitOf, jsCeilDiv, h150]
    · simp [paginateLogs, pageNumOf, pageLimitOf, jsCeilDiv, h150]
    · simp [paginateLogs, pageNumOf, pageLimitOf, jsCeilDiv, h150]
    · rw [h3]
      simp [List.length_drop, h150]

/-- C6 witness: the 150-record sample at `limit = 50` has three pages,
and at `limit = 1` the concatenation of all pages reproduces it. -/
theorem pages_concat_reproduce_witness :
    (paginateLogs l150 none (some 50)).pagination.totalPages = 3
    ∧ ((List.range
          (paginateLogs l150 (some 1) (some 1)).pagination.totalPages.toNat).map
        (fun i : Nat =>
          (paginateLogs l150 (some ((i : Int) + 1)) (some 1)).logs)).flatten
        = l150 :=
  ⟨(pages_concat_reproduce.2 l150 (by simp [l150])).1,
   pages_concat_reproduce.1 l150 1 (by omega)⟩

/-- C7 counterexample: two queries with identical parameters against
the unchanged one-line source, run one millisecond apart, return
records whose `id` fields differ (`0-0` versus `1-0`), so the Pages
are not identical in every field. -/
theorem queryLogs_clock_dependent_cex :
    (queryLogs clkMs0 bufIso none none none).logs.map (fun r => r.id)
      = [jstr "0-0"]
    ∧ (queryLogs clkMs1 bufIso none none none).logs.map (fun r => r.id)
      = [jstr "1-0"]
    ∧ queryLogs clkMs0 bufIso none none none
      ≠ queryLogs clkMs1 bufIso none none none := by
  refine ⟨?_, ?_, ?_⟩ <;> decide

/-- C7 (amended): identical parameters against an unchanged source
produce Pages with identical pagination and identical message and
stream in every record position; only the `id` (and, for records
without an ISO prefix, the `timestamp`) depend on the decode-time
clock. -/
theorem queryLogs_deterministic_up_to_clock :
    ∀ (clk clk' : Clock) (buffer : JStr) (search : Option JStr)
      (pageP limitP : Option Int),
      (queryLogs clk buffer search pageP limitP).pagination
        = (queryLogs clk' buffer search pageP limitP).pagination
      ∧ (queryLogs clk buffer search pageP limitP).logs.map projMS
        = (queryLogs clk' buffer search pageP limitP).logs.map projMS := by
  intro clk clk' buffer search pageP limitP
  have hfil : (searchFilter search (parseDockerLogs clk buffer)).map projMS
      = (searchFilter search (parseDockerLogs clk' buffer)).map projMS :=
    searchFilter_proj search _ _ (parseDockerLogs_proj clk clk' buffer)
  have hlen : (searchFilter search (parseDockerLogs clk buffer)).length
      = (searchFilter search (parseDockerLogs clk' buffer)).length := by
    have h2 := congrArg List.length hfil
    simpa using h2
  unfold queryLogs
  constructor
  · simp [paginateLogs, hlen]
  · simp only [paginateLogs]
    rw [jsSlice_map, jsSlice_map, hfil]

/-- C8 counterexample: the unrecognised `timeRange` token `2h` does
not fail with a `ValidationError`; the window resolution silently
falls back to `tail = 100`. -/
theorem resolveWindow_unknown_token_cex :
    resolveWindow (fun _ => none) (fun _ => none) 0
        none none (some (jstr "2h")) none
      = { since := none, untl := none, tail := some (some 100) } := by
  decide

/-- C8 (amended): unparsable window parameters are never rejected: an
unknown `timeRange` token silently yields the `tail = 100` default,
and an unparsable `since` or `tail` value becomes `NaN` and is passed
through to the log source; no field-naming `ValidationError` is ever
produced. -/
theorem resolveWindow_no_validation_error :
    (∀ (pd pint : JStr → JSNum) (now : Int) (tok : JStr),
      knownTimeRanges.contains tok = false → tok ≠ [] →
      resolveWindow pd pint now none none (some tok) none
        = { since := none, untl := none, tail := some (some 100) })
    ∧ (∀ (pd pint : JStr → JSNum) (now : Int) (s : JStr),
        s ≠ [] → pd s = none →
        (resolveWindow pd pint now (some s) none none none).since
          = some none)
    ∧ (∀ (pd pint : JStr → JSNum) (now : Int) (t : JStr),
        t ≠ [] → pint t = none →
        (resolveWindow pd pint now none none none (some t)).tail
          = some none) := by
  refine ⟨?_, ?_, ?_⟩
  · intro pd pint now tok hct hne
    have hemp : tok.isEmpty = false := by
      cases tok with
      | nil => exact absurd rfl hne
      | cons c t => rfl
    simp only [knownTimeRanges, List.contains_cons, Bool.or_eq_false_iff] at hct
    obtain ⟨h1, h2, h3, h4, h5, h6, h7, h8, h9, h10, -⟩ := hct
    simp [resolveWindow, jsTruthyStr, hemp, timeRangeSeconds,
      h1, h2, h3, h4, h5, h6, h7, h8, h9, h10]
  · intro pd pint now s hne hpd
    have hemp : s.isEmpty = false := by
      cases s with
      | nil => exact absurd rfl hne
      | cons c t => rfl
    simp [resolveWindow, jsTruthyStr, hemp, msToSeconds, hpd]
  · intro pd pint now t hne hpi
    have hemp : t.isEmpty = false := by
      cases t with
      | nil => exact absurd rfl hne
      | cons c t => rfl
    simp [resolveWindow, jsTruthyStr, hemp, hpi]

/-- C8 witness: the unknown token `2h` at a nonzero clock resolves
silently to the `tail = 100` default. -/
theorem resolveWindow_no_validation_error_witness :
    resolveWindow (fun _ => none) (fun _ => none) 55
        none none (some (jstr "2h")) none
      = { since := none, untl := none, tail := some (some 100) } :=
  resolveWindow_no_validation_error.1 (fun _ => none) (fun _ => none) 55
    (jstr "2h") (by decide) (by decide)

/-- C9 counterexample: a framed line with marker byte 2 whose stripped
payload has no ISO-timestamp prefix decodes with `stream = stdout`,
not `stderr` as the claim requires for every framed marker-2 line. -/
theorem marker2_without_timestamp_stdout_cex :
    headEq2 framedNoIso = true
    ∧ (parseDockerLogs clkA framedNoIso).map (fun r => r.stream)
        = [jstr "stdout"] := by
  refine ⟨?_, ?_⟩ <;> decide

/-- C9 (amended): for a framed line (first byte at most 2) the 8-byte
header is stripped, and the marker determines the stream exactly when
the stripped payload matches the ISO-timestamp pattern — marker 2
gives `stderr`, otherwise `stdout`; when the payload does not match,
any record produced has `stream = stdout` regardless of the marker and
carries the stripped payload as its message. -/
theorem framed_stream_marker_rules :
    (∀ (clk : Clock) (idx : Nat) (line : JStr) (c : Char) (rest : JStr),
      line = c :: rest → c.toNat ≤ 2 →
      ∀ ts msg, isoMatch (line.drop 8) = some (ts, msg) →
      processLine clk idx line
        = some { id := mkId clk idx, timestamp := ts, message := msg,
                 stream := if c.toNat == 2 then jstr "stderr"
                   else jstr "stdout" })
    ∧ (∀ (clk : Clock) (idx : Nat) (line : JStr) (c : Char) (rest : JStr),
        line = c :: rest → c.toNat ≤ 2 →
        isoMatch (line.drop 8) = none →
        ∀ r, processLine clk idx line = some r →
          r.stream = jstr "stdout" ∧ r.message = line.drop 8) := by
  constructor
  · intro clk idx line c rest hline hc ts msg hiso
    subst hline
    simp only [List.drop_succ_cons] at hiso
    simp [processLine, cleanOf, headLE2, headEq2, hc, hiso]
  · intro clk idx line c rest hline hc hiso r hr
    subst hline
    simp only [List.drop_succ_cons] at hiso
    simp only [processLine, cleanOf, headLE2, decide_eq_true_eq,
      List.drop_succ_cons] at hr
    rw [if_pos hc] at hr
    simp only [hiso] at hr
    split at hr
    · cases hr
    · cases hr
      simp

/-- C9 witness: a framed marker-2 line whose payload carries an ISO
timestamp decodes to a `stderr` record with the timestamp and message
taken from the stripped payload. -/
theorem framed_stream_marker_rules_witness :
    processLine clkA 0 framedIso
      = some { id := mkId clkA 0, timestamp := jstr "2024-01-15T10:30:45Z",
               message := jstr "hi", stream := jstr "stderr" } := by
  have h := framed_stream_marker_rules.1 clkA 0 framedIso (Char.ofNat 2)
    (List.replicate 7 (Char.ofNat 0) ++ jstr "2024-01-15T10:30:45Z hi")
    rfl (by decide) (jstr "2024-01-15T10:30:45Z") (jstr "hi") (by decide)
  simpa using h

/-- C10: the decoder is a total function on buffers (so it never
throws); an empty buffer yields the empty record list, a line whose
cleaned form is blank yields no record, and a line shorter than 8
bytes whose first byte is at most 2 yields no record. -/
theorem decoder_total_blank_handling :
    (∀ clk : Clock, parseDockerLogs clk [] = [])
    ∧ (∀ (clk : Clock) (idx : Nat) (line : JStr),
        jsTrim (cleanOf line) = [] → processLine clk idx line = none)
    ∧ (∀ (clk : Clock) (idx : Nat) (line : JStr) (c : Char) (rest : JStr),
        line = c :: rest → c.toNat ≤ 2 → line.length ≤ 8 →
        processLine clk idx line = none) := by
  refine ⟨?_, ?_, ?_⟩
  · intro clk
    rfl
  · intro clk idx line hblank
    have hiso : isoMatch (cleanOf line) = none :=
      isoMatch_of_all_space _ (jsTrim_nil_all_space _ hblank)
    simp only [processLine]
    rw [hiso, hblank]
    rfl
  · intro clk idx line c rest hline hc hlen
    have hclean : cleanOf line = [] := by
      subst hline
      simp only [cleanOf, headLE2, decide_eq_true_eq]
      rw [if_pos hc]
      exact List.drop_eq_nil_of_le hlen
    simp only [processLine]
    rw [hclean]
    rfl

/-- C10 witness: an all-blank line and a one-byte framed line each
produce no record. -/
theorem decoder_total_blank_handling_witness :
    processLine clkA 0 (jstr "   ") = none
    ∧ processLine clkA 1 [Char.ofNat 1] = none :=
  ⟨decoder_total_blank_handling.2.1 clkA 0 (jstr "   ") (by decide),
   decoder_total_blank_handling.2.2 clkA 1 [Char.ofNat 1] (Char.ofNat 1) []
     rfl (by decide) (by decide)⟩
